import Mathlib

/-!
Verification of the autoscaler trait controller
(`pkg/controller/v1alpha1/autoscaler/types.go`).

The controller's `Reconcile` method is embedded shallowly: the cluster
interactions (get/locate/fetch/patch and the KEDA synchronizer call) are
inputs supplied by an `Env` record, and the observable effects (requeue
result, returned error, emitted events, store writes, final in-memory
trait) are collected into a `ReconcileOutput` record.  A nil-pointer
dereference in the Go code is modelled by `Reconcile` returning `none`.
-/

namespace Autoscalers

/-- The `metav1.OwnerReference` record: the `Controller` and
`BlockOwnerDeletion` fields are `*bool` in Go, hence `Option Bool` here
(`none` = nil pointer). -/
structure OwnerReference where
  apiVersion : String
  kind : String
  name : String
  uid : String
  controller : Option Bool
  blockOwnerDeletion : Option Bool
deriving DecidableEq, Repr

/-- An unstructured cluster resource, restricted to the fields the
controller reads: apiVersion, kind, name, and owner references. -/
structure Resource where
  apiVersion : String
  kind : String
  name : String
  ownerReferences : List OwnerReference
deriving DecidableEq, Repr

/-- The `v1alpha1.TargetWorkload` record: the (apiVersion, kind, name) triple stored
in `scaler.Spec.TargetWorkload`.  The Go zero value is three empty strings. -/
structure TargetWorkload where
  apiVersion : String
  kind : String
  name : String
deriving DecidableEq, Repr

/-- The Go zero value of `v1alpha1.TargetWorkload`. -/
def TargetWorkload.zero : TargetWorkload :=
  { apiVersion := "", kind := "", name := "" }

/-- The `v1alpha1.Autoscaler` trait, restricted to the fields `Reconcile` reads or
writes: identity and `Spec.TargetWorkload`. -/
structure Autoscaler where
  apiVersion : String
  kind : String
  name : String
  uid : String
  targetWorkload : TargetWorkload
deriving DecidableEq, Repr

/-- The warning-message constants of `types.go` (lines 63-71). -/
def SpecWarningTargetWorkloadNotSet : String := "Spec.targetWorkload is not set"

def SpecWarningStartAtTimeFormat : String :=
  "startAt is not in the right format, which should be like `12:01`"

def SpecWarningStartAtTimeRequired : String :=
  "spec.triggers.condition.startAt: Required value"

def SpecWarningDurationTimeRequired : String :=
  "spec.triggers.condition.duration: Required value"

def SpecWarningReplicasRequired : String :=
  "spec.triggers.condition.replicas: Required value"

def SpecWarningDurationTimeNotInRightFormat : String :=
  "spec.triggers.condition.duration: not in the right format"

def SpecWarningSumOfStartAndDurationMoreThan24Hour : String :=
  "the sum of the start hour and the duration hour has to be less than 24 hours."

/-- Accumulating decimal parse of a character list; `none` when the list
holds a non-digit or when nothing was consumed. -/
def parseNatDigits : List Char → Option Nat → Option Nat
  | [], acc => acc
  | c :: cs, acc =>
    if c.isDigit then parseNatDigits cs (some ((acc.getD 0) * 10 + (c.toNat - 48)))
    else none

/-- Split a character list at its first colon. -/
def splitAtColon : List Char → Option (List Char × List Char)
  | [] => none
  | c :: cs =>
    if c = ':' then some ([], cs)
    else
      match splitAtColon cs with
      | none => none
      | some (a, b) => some (c :: a, b)

/-- Modelled from the spec: `scaleByKEDA`'s cron validation is not in src.
"`startAt` required and must parse as `HH:MM`" (like `12:01`); returns the
start hour on success. -/
def parseStartAtHour (s : String) : Option Nat :=
  match splitAtColon s.data with
  | none => none
  | some (hcs, mcs) =>
    match parseNatDigits hcs none, parseNatDigits mcs none with
    | some h, some m => if h < 24 then if m < 60 then some h else none else none
    | _, _ => none

/-- Modelled from the spec: "`duration` required and must parse as an hour
count". -/
def parseDurationHour (s : String) : Option Nat :=
  parseNatDigits s.data none

/-- The cron variant of `v1alpha1.Trigger`'s condition: `startAt` (HH:MM),
`duration` (hours), `replicas`; all optional in the schema. -/
structure CronTrigger where
  startAt : Option String
  duration : Option String
  replicas : Option Nat
deriving DecidableEq, Repr

/-- Modelled from the spec: the per-cron-trigger validation performed by
`scaleByKEDA` (not in src).  Each violated condition yields the
corresponding warning constant of `types.go`: missing/malformed `startAt`,
missing/malformed `duration`, missing `replicas`, and a start-plus-duration
sum of 24 hours or more. -/
def validateCron (t : CronTrigger) : List String :=
  (match t.startAt with
    | none => [SpecWarningStartAtTimeRequired]
    | some s =>
      match parseStartAtHour s with
      | none => [SpecWarningStartAtTimeFormat]
      | some _ => []) ++
  (match t.duration with
    | none => [SpecWarningDurationTimeRequired]
    | some d =>
      match parseDurationHour d with
      | none => [SpecWarningDurationTimeNotInRightFormat]
      | some _ => []) ++
  (match t.replicas with
    | none => [SpecWarningReplicasRequired]
    | some _ => []) ++
  (match t.startAt, t.duration with
    | some s, some d =>
      match parseStartAtHour s, parseDurationHour d with
      | some h, some dh =>
        if h + dh < 24 then [] else [SpecWarningSumOfStartAndDurationMoreThan24Hour]
      | _, _ => []
    | _, _ => [])

/-- A cron trigger is valid (included in delegation) when its validation
produces no warning. -/
def cronValid (t : CronTrigger) : Bool :=
  (validateCron t).isEmpty

/-- Line 79, `ReconcileWaitResult = reconcile.Result` with a 30-second
`RequeueAfter`, as a requeue delay in seconds. -/
def ReconcileWaitResult : Nat := 30

/-- Modelled from the spec: `util.ReconcileWaitResult` of the external
oam-kubernetes-runtime package is not in src; the spec says the bounded
retry is "the same fixed 30-second requeue used elsewhere". -/
def utilReconcileWaitResult : Nat := 30

/-- The owner reference the controller builds for the trait
(`Reconcile`, lines 127-134): `Controller=true`, `BlockOwnerDeletion=true`. -/
def traitOwnerReference (scaler : Autoscaler) : OwnerReference :=
  { apiVersion := scaler.apiVersion
    kind := scaler.kind
    name := scaler.name
    uid := scaler.uid
    controller := some true
    blockOwnerDeletion := some true }

/-- One iteration of the demotion loop body (lines 150-154) on a single
existing reference: `if *r.Controller { refs[i].Controller = false }`.
Dereferencing a nil `Controller` pointer panics, modelled as `none`. -/
def demoteRef (r : OwnerReference) : Option OwnerReference :=
  match r.controller with
  | none => none
  | some c => some (if c then { r with controller := some false } else r)

/-- The demotion loop of lines 150-154 over the whole reference list. -/
def demoteRefs : List OwnerReference → Option (List OwnerReference)
  | [] => some []
  | r :: rs =>
    match demoteRef r with
    | none => none
    | some r' =>
      match demoteRefs rs with
      | none => none
      | some rs' => some (r' :: rs')

/-- The owner-reference rewrite applied to each discovered resource
(lines 149-155): demote every existing `controller=true` reference, then
append the trait's reference.  `none` models the nil-pointer panic. -/
def adoptRefs (ownerRef : OwnerReference) (refs : List OwnerReference) :
    Option (List OwnerReference) :=
  (demoteRefs refs).map (fun demoted => demoted ++ [ownerRef])

/-- The resource as the loop body patches it: its owner references
replaced by `adoptRefs` of the old ones. -/
def adoptResource (ownerRef : OwnerReference) (res : Resource) : Option Resource :=
  (adoptRefs ownerRef res.ownerReferences).map
    (fun refs => { res with ownerReferences := refs })

/-- The adoption loop's per-resource rewrite over a whole list, for
stating which resources a run has patched. -/
def adoptedList (ownerRef : OwnerReference) (rs : List Resource) : List Resource :=
  rs.filterMap (adoptResource ownerRef)

/-- The target-resolution test of line 163:
`res.GetKind() == "Deployment" || res.GetKind() == "StatefulSet"`. -/
def isScalableKind (k : String) : Bool :=
  k == "Deployment" || k == "StatefulSet"

/-- A write issued to the resource store during one reconcile.
`patchOwnerRefs` is the `r.Patch` call of line 157 (carrying the patched
resource); `patchTraitStatusCondition` is a `util.PatchCondition` call,
which writes the trait's status conditions.  `Reconcile` contains no call
that writes the trait's spec, so no such constructor is ever emitted. -/
inductive StoreWrite where
  | patchOwnerRefs (res : Resource)
  | patchTraitStatusCondition
deriving DecidableEq, Repr

/-- Result of `r.Get` on the trait (lines 98-99): found, not-found
(`client.IgnoreNotFound` maps the error to nil), or another error. -/
inductive GetTraitResult where
  | found (scaler : Autoscaler)
  | notFound
  | errorOther
deriving Repr

/-- The environment one reconcile invocation runs against: the outcomes
of the cluster calls `Reconcile` makes, in program order.  `patchOK i`
tells whether the i-th `r.Patch` call of the adoption loop succeeds. -/
structure Env where
  getTrait : GetTraitResult
  locateParent : Except Unit (Option Unit)
  fetchWorkload : Except Unit Resource
  fetchChildren : Except Unit (List Resource)
  patchOK : Nat → Bool
  kedaOK : Bool

/-- The observable outcome of one reconcile invocation:
requeue delay of the returned `ctrl.Result` (in seconds), whether the
returned error is nil, how many events `r.record.Event` emitted, the
store writes in order, and the in-memory trait at the return point
(`none` when the trait was never fetched). -/
structure ReconcileOutput where
  requeueAfterSeconds : Nat
  errNil : Bool
  eventsEmitted : Nat
  writes : List StoreWrite
  finalScaler : Option Autoscaler
deriving DecidableEq, Repr

/-- Is this store write a `util.PatchCondition` call? -/
def isConditionWrite : StoreWrite → Bool
  | .patchTraitStatusCondition => true
  | _ => false

/-- The resource carried by an owner-reference patch, if any. -/
def ownerRefsWrite? : StoreWrite → Option Resource
  | .patchOwnerRefs res => some res
  | _ => none

/-- Number of `util.PatchCondition` calls the invocation performed. -/
def conditionsRecorded (out : ReconcileOutput) : Nat :=
  (out.writes.filter isConditionWrite).length

/-- The resources written by the adoption loop's `r.Patch` calls, in order. -/
def patchedResources (out : ReconcileOutput) : List Resource :=
  out.writes.filterMap ownerRefsWrite?

/-- The Condition/Event Reporter was reached: a condition was patched
onto the trait or an event was emitted. -/
def reporterInvoked (out : ReconcileOutput) : Bool :=
  decide (conditionsRecorded out ≠ 0) || decide (out.eventsEmitted ≠ 0)

/-- Outcome of the adoption/target-resolution loop (lines 146-171). -/
inductive AdoptOutcome where
  | crash
  | aborted (patched : List Resource) (scaler : Autoscaler)
  | completed (patched : List Resource) (scaler : Autoscaler) (flag : Bool)
deriving Repr

/-- The loop of lines 147-171 over the discovered resources: rewrite the
owner references (possible nil-pointer crash), patch the resource
(abort on failure, before any target update for that resource), then
set `scaler.Spec.TargetWorkload` on the first `Deployment`/`StatefulSet`
(guarded by `targetWorkloadSetFlag`).  `i` is the index of the next
patch call, `flag` is `targetWorkloadSetFlag`. -/
def adoptAndResolve (ownerRef : OwnerReference) (patchOK : Nat → Bool) :
    List Resource → Nat → Autoscaler → Bool → AdoptOutcome
  | [], _, scaler, flag => .completed [] scaler flag
  | res :: rest, i, scaler, flag =>
    match adoptResource ownerRef res with
    | none => .crash
    | some res' =>
      if patchOK i then
        let scaler' :=
          if !flag && isScalableKind res.kind then
            { scaler with targetWorkload :=
                { apiVersion := res.apiVersion, kind := res.kind, name := res.name } }
          else scaler
        let flag' := flag || isScalableKind res.kind
        match adoptAndResolve ownerRef patchOK rest (i + 1) scaler' flag' with
        | .crash => .crash
        | .aborted p s => .aborted (res' :: p) s
        | .completed p s f => .completed (res' :: p) s f
      else .aborted [] scaler

/-- The `Reconcile` method (lines 93-188).  `none` models a panic.
`util.PatchCondition`'s own returned error is modelled as nil (its
result is what the Go code returns as the error on those paths).
Modelled from the spec: `scaleByKEDA`'s body is not in src; per
section 7 ("DelegationFailure: ... bounded retry (30s), condition
recorded") a failing delegation records a condition before its error
propagates to the call site (line 184), which returns it with the
30-second requeue. -/
def Reconcile (env : Env) : Option ReconcileOutput :=
  match env.getTrait with
  | .notFound =>
    some { requeueAfterSeconds := ReconcileWaitResult, errNil := true,
           eventsEmitted := 0, writes := [], finalScaler := none }
  | .errorOther =>
    some { requeueAfterSeconds := ReconcileWaitResult, errNil := false,
           eventsEmitted := 0, writes := [], finalScaler := none }
  | .found scaler =>
    match env.locateParent with
    | .error _ =>
      some { requeueAfterSeconds := utilReconcileWaitResult, errNil := true,
             eventsEmitted := 0, writes := [.patchTraitStatusCondition],
             finalScaler := some scaler }
    | .ok _parent =>
      match env.fetchWorkload with
      | .error _ =>
        some { requeueAfterSeconds := utilReconcileWaitResult, errNil := true,
               eventsEmitted := 1, writes := [.patchTraitStatusCondition],
               finalScaler := some scaler }
      | .ok workload =>
        let ownerRef := traitOwnerReference scaler
        match env.fetchChildren with
        | .error _ =>
          some { requeueAfterSeconds := utilReconcileWaitResult, errNil := true,
                 eventsEmitted := 1, writes := [.patchTraitStatusCondition],
                 finalScaler := some scaler }
        | .ok children =>
          let resources := children ++ [workload]
          match adoptAndResolve ownerRef env.patchOK resources 0 scaler false with
          | .crash => none
          | .aborted patched scaler' =>
            some { requeueAfterSeconds := utilReconcileWaitResult, errNil := true,
                   eventsEmitted := 0,
                   writes := patched.map StoreWrite.patchOwnerRefs ++
                     [.patchTraitStatusCondition],
                   finalScaler := some scaler' }
          | .completed patched scaler' flag =>
            let scaler'' :=
              if resources.length == 1 && !flag then
                { scaler' with targetWorkload :=
                    { apiVersion := workload.apiVersion, kind := workload.kind,
                      name := workload.name } }
              else scaler'
            if env.kedaOK then
              some { requeueAfterSeconds := 0, errNil := true,
                     eventsEmitted := 0,
                     writes := patched.map StoreWrite.patchOwnerRefs,
                     finalScaler := some scaler'' }
            else
              some { requeueAfterSeconds := ReconcileWaitResult, errNil := false,
                     eventsEmitted := 0,
                     writes := patched.map StoreWrite.patchOwnerRefs ++
                       [.patchTraitStatusCondition],
                     finalScaler := some scaler'' }

/-- Test for the C1 invariant: a reference carrying `controller=true`. -/
def controllerTrue (r : OwnerReference) : Bool :=
  r.controller == some true

/-- The C1 per-resource postcondition relating a discovered resource to
its patched form: exactly one `controller=true` reference and it is the
trait's; every previously-controlling reference still present, demoted;
no reference deleted; the list grew by exactly the appended reference. -/
def ownershipAdopted (scaler : Autoscaler) (res res' : Resource) : Prop :=
  res'.ownerReferences.filter controllerTrue = [traitOwnerReference scaler] ∧
  (∀ r ∈ res.ownerReferences, r.controller = some true →
    { r with controller := some false } ∈ res'.ownerReferences) ∧
  (∀ r ∈ res.ownerReferences,
    r ∈ res'.ownerReferences ∨ { r with controller := some false } ∈ res'.ownerReferences) ∧
  res'.ownerReferences.length = res.ownerReferences.length + 1

/-- A trait whose spec carries no target workload yet. -/
def sampleScaler : Autoscaler :=
  { apiVersion := "standard.oam.dev/v1alpha1"
    kind := "Autoscaler"
    name := "scaler-sample"
    uid := "uid-scaler"
    targetWorkload := TargetWorkload.zero }

/-- A pre-existing controlling owner reference on a child resource. -/
def prevOwner : OwnerReference :=
  { apiVersion := "core.oam.dev/v1alpha2"
    kind := "ApplicationConfiguration"
    name := "app-sample"
    uid := "uid-app"
    controller := some true
    blockOwnerDeletion := some true }

/-- A deployment child resource already controlled by `prevOwner`. -/
def sampleDeployment : Resource :=
  { apiVersion := "apps/v1", kind := "Deployment", name := "deploy-sample",
    ownerReferences := [prevOwner] }

/-- The workload the trait references. -/
def sampleWorkload : Resource :=
  { apiVersion := "core.oam.dev/v1alpha2", kind := "ContainerizedWorkload",
    name := "workload-sample", ownerReferences := [] }

/-- A non-scalable child resource. -/
def sampleService : Resource :=
  { apiVersion := "v1", kind := "Service", name := "svc-sample",
    ownerReferences := [] }

/-- An environment in which every cluster call succeeds. -/
def okEnv : Env :=
  { getTrait := .found sampleScaler
    locateParent := .ok (some ())
    fetchWorkload := .ok sampleWorkload
    fetchChildren := .ok [sampleDeployment]
    patchOK := fun _ => true
    kedaOK := true }

/-- The output of `Reconcile` on `okEnv`: both resources patched (the
previous controller demoted, the trait's reference appended), the target
workload resolved to the deployment, empty requeue result, nil error. -/
def okOut : ReconcileOutput :=
  { requeueAfterSeconds := 0
    errNil := true
    eventsEmitted := 0
    writes :=
      [.patchOwnerRefs { sampleDeployment with ownerReferences :=
          [{ prevOwner with controller := some false }, traitOwnerReference sampleScaler] },
       .patchOwnerRefs { sampleWorkload with ownerReferences :=
          [traitOwnerReference sampleScaler] }]
    finalScaler := some { sampleScaler with targetWorkload :=
      { apiVersion := "apps/v1", kind := "Deployment", name := "deploy-sample" } } }

/-- An environment whose trait fetch reports not-found. -/
def notFoundEnv : Env :=
  { getTrait := .notFound
    locateParent := .ok none
    fetchWorkload := .error ()
    fetchChildren := .error ()
    patchOK := fun _ => true
    kedaOK := true }

/-- A stateful-set child resource. -/
def sampleStatefulSet : Resource :=
  { apiVersion := "apps/v1", kind := "StatefulSet", name := "sts-sample",
    ownerReferences := [] }

/-- An all-success environment whose discovery order holds two scalable
candidates, the deployment first. -/
def twoScalableEnv : Env :=
  { getTrait := .found sampleScaler
    locateParent := .ok (some ())
    fetchWorkload := .ok sampleWorkload
    fetchChildren := .ok [sampleDeployment, sampleStatefulSet]
    patchOK := fun _ => true
    kedaOK := true }

/-- The output of `Reconcile` on `twoScalableEnv`. -/
def twoScalableOut : ReconcileOutput :=
  { requeueAfterSeconds := 0
    errNil := true
    eventsEmitted := 0
    writes :=
      [.patchOwnerRefs { sampleDeployment with ownerReferences :=
          [{ prevOwner with controller := some false }, traitOwnerReference sampleScaler] },
       .patchOwnerRefs { sampleStatefulSet with ownerReferences :=
          [traitOwnerReference sampleScaler] },
       .patchOwnerRefs { sampleWorkload with ownerReferences :=
          [traitOwnerReference sampleScaler] }]
    finalScaler := some { sampleScaler with targetWorkload :=
      { apiVersion := "apps/v1", kind := "Deployment", name := "deploy-sample" } } }

/-- An all-success environment with one non-scalable child: the discovered
set holds no deployment-like or stateful-set-like resource, but is larger
than the workload alone. -/
def serviceChildEnv : Env :=
  { getTrait := .found sampleScaler
    locateParent := .ok (some ())
    fetchWorkload := .ok sampleWorkload
    fetchChildren := .ok [sampleService]
    patchOK := fun _ => true
    kedaOK := true }

/-- The output of `Reconcile` on `serviceChildEnv`: no target workload is
ever written (the trait keeps its zero-valued `targetWorkload`). -/
def serviceChildOut : ReconcileOutput :=
  { requeueAfterSeconds := 0
    errNil := true
    eventsEmitted := 0
    writes :=
      [.patchOwnerRefs { sampleService with ownerReferences :=
          [traitOwnerReference sampleScaler] },
       .patchOwnerRefs { sampleWorkload with ownerReferences :=
          [traitOwnerReference sampleScaler] }]
    finalScaler := some sampleScaler }

/-- An all-success environment with no children at all. -/
def emptyChildrenEnv : Env :=
  { getTrait := .found sampleScaler
    locateParent := .ok (some ())
    fetchWorkload := .ok sampleWorkload
    fetchChildren := .ok []
    patchOK := fun _ => true
    kedaOK := true }

/-- The output of `Reconcile` on `emptyChildrenEnv`: the fallback branch
selects the workload itself as the target. -/
def emptyChildrenOut : ReconcileOutput :=
  { requeueAfterSeconds := 0
    errNil := true
    eventsEmitted := 0
    writes :=
      [.patchOwnerRefs { sampleWorkload with ownerReferences :=
          [traitOwnerReference sampleScaler] }]
    finalScaler := some { sampleScaler with targetWorkload :=
      { apiVersion := "core.oam.dev/v1alpha2", kind := "ContainerizedWorkload",
        name := "workload-sample" } } }

/-- Does this store write update a trait's `spec` (in particular its
`targetWorkload`)?  The `r.Patch` of line 157 writes a child/workload's
`metadata.ownerReferences`; `util.PatchCondition` writes the trait's
`status.conditions`; no call in `Reconcile` writes a spec field. -/
def writesTraitSpec : StoreWrite → Bool
  | .patchOwnerRefs _ => false
  | .patchTraitStatusCondition => false

/-- The deployment as the first successful reconcile leaves it in the
store: previous controller demoted, trait reference appended. -/
def firstRunDeployment : Resource :=
  { sampleDeployment with ownerReferences :=
      [{ prevOwner with controller := some false }, traitOwnerReference sampleScaler] }

/-- The workload as the first successful reconcile leaves it in the store. -/
def firstRunWorkload : Resource :=
  { sampleWorkload with ownerReferences := [traitOwnerReference sampleScaler] }

/-- The environment of a second reconcile of the unchanged trait: the
cluster state is exactly what the first successful run (`okEnv`) wrote;
the stored trait is unchanged (nothing wrote its spec). -/
def secondRunEnv : Env :=
  { getTrait := .found sampleScaler
    locateParent := .ok (some ())
    fetchWorkload := .ok firstRunWorkload
    fetchChildren := .ok [firstRunDeployment]
    patchOK := fun _ => true
    kedaOK := true }

/-- The output of `Reconcile` on `secondRunEnv`: the previous trait
reference is demoted and a duplicate appended, so both owner-reference
lists grow again. -/
def secondRunOut : ReconcileOutput :=
  { requeueAfterSeconds := 0
    errNil := true
    eventsEmitted := 0
    writes :=
      [.patchOwnerRefs { sampleDeployment with ownerReferences :=
          [{ prevOwner with controller := some false },
           { traitOwnerReference sampleScaler with controller := some false },
           traitOwnerReference sampleScaler] },
       .patchOwnerRefs { sampleWorkload with ownerReferences :=
          [{ traitOwnerReference sampleScaler with controller := some false },
           traitOwnerReference sampleScaler] }]
    finalScaler := some { sampleScaler with targetWorkload :=
      { apiVersion := "apps/v1", kind := "Deployment", name := "deploy-sample" } } }

/-- The environment `okEnv` with a failing KEDA synchronization
(`scaleByKEDA` errors). -/
def kedaFailEnv : Env :=
  { getTrait := .found sampleScaler
    locateParent := .ok (some ())
    fetchWorkload := .ok sampleWorkload
    fetchChildren := .ok [sampleDeployment]
    patchOK := fun _ => true
    kedaOK := false }

/-- The output of `Reconcile` on `kedaFailEnv`: an error return with the
30-second requeue and (modelled from the spec, section 7) one condition
recorded by the failing delegation. -/
def kedaFailOut : ReconcileOutput :=
  { requeueAfterSeconds := ReconcileWaitResult
    errNil := false
    eventsEmitted := 0
    writes := okOut.writes ++ [.patchTraitStatusCondition]
    finalScaler := okOut.finalScaler }

/-- An environment whose trait fetch fails with an error other than
not-found. -/
def getErrEnv : Env :=
  { getTrait := .errorOther
    locateParent := .ok none
    fetchWorkload := .error ()
    fetchChildren := .error ()
    patchOK := fun _ => true
    kedaOK := true }

/-- The output of `Reconcile` on `getErrEnv`: a non-nil error return with
no condition recorded and no event emitted. -/
def getErrOut : ReconcileOutput :=
  { requeueAfterSeconds := ReconcileWaitResult
    errNil := false
    eventsEmitted := 0
    writes := []
    finalScaler := none }

/-- An environment whose parent-location call fails. -/
def locateErrEnv : Env :=
  { getTrait := .found sampleScaler
    locateParent := .error ()
    fetchWorkload := .ok sampleWorkload
    fetchChildren := .ok [sampleDeployment]
    patchOK := fun _ => true
    kedaOK := true }

/-- The output of `Reconcile` on `locateErrEnv`: condition recorded. -/
def locateErrOut : ReconcileOutput :=
  { requeueAfterSeconds := utilReconcileWaitResult
    errNil := true
    eventsEmitted := 0
    writes := [.patchTraitStatusCondition]
    finalScaler := some sampleScaler }

/-- The environment `twoScalableEnv` whose second patch call (index 1)
fails. -/
def patchFailEnv : Env :=
  { getTrait := .found sampleScaler
    locateParent := .ok (some ())
    fetchWorkload := .ok sampleWorkload
    fetchChildren := .ok [sampleDeployment, sampleStatefulSet]
    patchOK := fun i => i == 0
    kedaOK := true }

/-- An owner reference whose `Controller` pointer is nil, as Kubernetes
permits for non-controller owners. -/
def nilControllerRef : OwnerReference :=
  { apiVersion := "core.oam.dev/v1alpha2"
    kind := "ApplicationConfiguration"
    name := "app-sample"
    uid := "uid-app"
    controller := none
    blockOwnerDeletion := none }

/-- A child resource carrying an owner reference with a nil controller
flag. -/
def nilControllerChild : Resource :=
  { apiVersion := "apps/v1", kind := "Deployment", name := "deploy-nil",
    ownerReferences := [nilControllerRef] }

/-- An otherwise-healthy environment whose child resource carries an owner
reference with a nil controller flag. -/
def nilControllerEnv : Env :=
  { getTrait := .found sampleScaler
    locateParent := .ok (some ())
    fetchWorkload := .ok sampleWorkload
    fetchChildren := .ok [nilControllerChild]
    patchOK := fun _ => true
    kedaOK := true }

theorem demoteRef_controller {r r' : OwnerReference} (h : demoteRef r = some r') :
    r'.controller = some false := by
  rcases hc : r.controller with _ | c
  · simp [demoteRef, hc] at h
  · rcases c with _ | _
    · simp [demoteRef, hc] at h
      rw [← h, hc]
    · simp [demoteRef, hc] at h
      rw [← h]

theorem demoteRef_eq {r r' : OwnerReference} (h : demoteRef r = some r') :
    r' = r ∨ r' = { r with controller := some false } := by
  rcases hc : r.controller with _ | c
  · simp [demoteRef, hc] at h
  · rcases c with _ | _
    · simp [demoteRef, hc] at h
      exact Or.inl h.symm
    · simp [demoteRef, hc] at h
      exact Or.inr h.symm

theorem demoteRef_of_true {r : OwnerReference} (h : r.controller = some true) :
    demoteRef r = some { r with controller := some false } := by
  simp [demoteRef, h]

theorem demoteRef_isSome {r : OwnerReference} (h : r.controller ≠ none) :
    ∃ r', demoteRef r = some r' := by
  rcases hc : r.controller with _ | c
  · exact absurd hc h
  · rcases c with _ | _
    · exact ⟨r, by simp [demoteRef, hc]⟩
    · exact ⟨{ r with controller := some false }, by simp [demoteRef, hc]⟩

theorem demoteRefs_forall₂ {refs ds : List OwnerReference}
    (h : demoteRefs refs = some ds) :
    List.Forall₂ (fun r d => demoteRef r = some d) refs ds := by
  induction refs generalizing ds with
  | nil =>
    simp [demoteRefs] at h
    subst h
    exact List.Forall₂.nil
  | cons r rs ih =>
    rw [demoteRefs] at h
    cases hr : demoteRef r with
    | none => rw [hr] at h; exact absurd h (by simp)
    | some r' =>
      rw [hr] at h
      cases hrs : demoteRefs rs with
      | none => rw [hrs] at h; exact absurd h (by simp)
      | some ds' =>
        rw [hrs] at h
        simp at h
        rw [← h]
        exact List.Forall₂.cons hr (ih hrs)

theorem demoteRefs_isSome {refs : List OwnerReference}
    (h : ∀ r ∈ refs, r.controller ≠ none) :
    ∃ ds, demoteRefs refs = some ds := by
  induction refs with
  | nil => exact ⟨[], rfl⟩
  | cons r rs ih =>
    obtain ⟨r', hr⟩ := demoteRef_isSome (h r (List.mem_cons_self r rs))
    obtain ⟨ds, hds⟩ := ih (fun x hx => h x (List.mem_cons_of_mem r hx))
    exact ⟨r' :: ds, by rw [demoteRefs, hr, hds]⟩

theorem forall₂_mem_left {α β : Type} {R : α → β → Prop}
    {l₁ : List α} {l₂ : List β} (h : List.Forall₂ R l₁ l₂) :
    ∀ a ∈ l₁, ∃ b ∈ l₂, R a b := by
  induction h with
  | nil => intro a ha; exact absurd ha (by simp)
  | cons hr _ ih =>
    intro a ha
    rcases List.mem_cons.mp ha with rfl | ha'
    · exact ⟨_, List.mem_cons_self _ _, hr⟩
    · obtain ⟨b, hb, hR⟩ := ih a ha'
      exact ⟨b, List.mem_cons_of_mem _ hb, hR⟩

theorem adoptRefs_eq {o : OwnerReference} {refs refs' : List OwnerReference}
    (h : adoptRefs o refs = some refs') :
    ∃ ds, demoteRefs refs = some ds ∧ refs' = ds ++ [o] := by
  unfold adoptRefs at h
  cases hd : demoteRefs refs with
  | none => rw [hd] at h; exact absurd h (by simp)
  | some ds =>
    rw [hd] at h
    simp at h
    exact ⟨ds, rfl, h.symm⟩

theorem adoptRefs_isSome {o : OwnerReference} {refs : List OwnerReference}
    (h : ∀ r ∈ refs, r.controller ≠ none) :
    ∃ refs', adoptRefs o refs = some refs' := by
  obtain ⟨ds, hds⟩ := demoteRefs_isSome h
  exact ⟨ds ++ [o], by rw [adoptRefs, hds]; rfl⟩

theorem forall₂_mem_right {α β : Type} {R : α → β → Prop}
    {l₁ : List α} {l₂ : List β} (h : List.Forall₂ R l₁ l₂) :
    ∀ b ∈ l₂, ∃ a ∈ l₁, R a b := by
  induction h with
  | nil => intro b hb; exact absurd hb (by simp)
  | cons hr _ ih =>
    intro b hb
    rcases List.mem_cons.mp hb with rfl | hb'
    · exact ⟨_, List.mem_cons_self _ _, hr⟩
    · obtain ⟨a, ha, hR⟩ := ih b hb'
      exact ⟨a, List.mem_cons_of_mem _ ha, hR⟩

theorem adoptResource_eq {o : OwnerReference} {res res' : Resource}
    (h : adoptResource o res = some res') :
    ∃ refs', adoptRefs o res.ownerReferences = some refs' ∧
      res' = { res with ownerReferences := refs' } := by
  unfold adoptResource at h
  cases ha : adoptRefs o res.ownerReferences with
  | none => rw [ha] at h; exact absurd h (by simp)
  | some refs' =>
    rw [ha] at h
    simp at h
    exact ⟨refs', rfl, h.symm⟩

theorem adoptResource_isSome {o : OwnerReference} {res : Resource}
    (h : ∀ r ∈ res.ownerReferences, r.controller ≠ none) :
    ∃ res', adoptResource o res = some res' := by
  obtain ⟨refs', h'⟩ := adoptRefs_isSome (o := o) h
  exact ⟨_, by rw [adoptResource, h']; rfl⟩

theorem adoptRefs_ownership {scaler : Autoscaler} {refs refs' : List OwnerReference}
    (h : adoptRefs (traitOwnerReference scaler) refs = some refs') :
    refs'.filter controllerTrue = [traitOwnerReference scaler] ∧
    (∀ r ∈ refs, r.controller = some true → { r with controller := some false } ∈ refs') ∧
    (∀ r ∈ refs, r ∈ refs' ∨ { r with controller := some false } ∈ refs') ∧
    refs'.length = refs.length + 1 := by
  obtain ⟨ds, hds, rfl⟩ := adoptRefs_eq h
  have hf₂ := demoteRefs_forall₂ hds
  refine ⟨?_, ?_, ?_, ?_⟩
  · rw [List.filter_append]
    have h1 : ds.filter controllerTrue = [] := by
      rw [List.filter_eq_nil_iff]
      intro d hd
      obtain ⟨r, _, hdr⟩ := forall₂_mem_right hf₂ d hd
      have := demoteRef_controller hdr
      simp [controllerTrue, this]
    have h2 : [traitOwnerReference scaler].filter controllerTrue =
        [traitOwnerReference scaler] := by
      simp [controllerTrue, traitOwnerReference]
    rw [h1, h2, List.nil_append]
  · intro r hr htrue
    obtain ⟨d, hd, hdr⟩ := forall₂_mem_left hf₂ r hr
    rw [demoteRef_of_true htrue] at hdr
    have : d = { r with controller := some false } := by
      exact (Option.some_injective _ hdr).symm
    rw [← this]
    exact List.mem_append_left _ hd
  · intro r hr
    obtain ⟨d, hd, hdr⟩ := forall₂_mem_left hf₂ r hr
    rcases demoteRef_eq hdr with h' | h'
    · exact Or.inl (by rw [← h']; exact List.mem_append_left _ hd)
    · exact Or.inr (by rw [← h']; exact List.mem_append_left _ hd)
  · rw [List.length_append, hf₂.length_eq]
    rfl

theorem adoptResource_ownership {scaler : Autoscaler} {res res' : Resource}
    (h : adoptResource (traitOwnerReference scaler) res = some res') :
    ownershipAdopted scaler res res' := by
  obtain ⟨refs', ha, rfl⟩ := adoptResource_eq h
  exact adoptRefs_ownership ha

theorem adoptAndResolve_completed_forall₂ {o : OwnerReference} {pOK : Nat → Bool}
    {rs : List Resource} {i : Nat} {scaler s : Autoscaler} {flag f : Bool}
    {p : List Resource}
    (h : adoptAndResolve o pOK rs i scaler flag = .completed p s f) :
    List.Forall₂ (fun res res' => adoptResource o res = some res') rs p := by
  induction rs generalizing i scaler flag p s f with
  | nil =>
    simp [adoptAndResolve] at h
    rw [h.1]
    exact List.Forall₂.nil
  | cons res rest ih =>
    rw [adoptAndResolve] at h
    cases hres : adoptResource o res with
    | none => rw [hres] at h; exact absurd h (by simp)
    | some res' =>
      rw [hres] at h
      by_cases hp : pOK i = true
      · simp only [hp, if_true] at h
        cases hrec : adoptAndResolve o pOK rest (i + 1)
            (if (!flag && isScalableKind res.kind) = true then
              { scaler with targetWorkload :=
                  { apiVersion := res.apiVersion, kind := res.kind, name := res.name } }
            else scaler)
            (flag || isScalableKind res.kind) with
        | crash => rw [hrec] at h; exact absurd h (by simp)
        | aborted p₀ s₀ => rw [hrec] at h; exact absurd h (by simp)
        | completed p₀ s₀ f₀ =>
          rw [hrec] at h
          simp at h
          obtain ⟨hp₀, hs₀, hf₀⟩ := h
          rw [← hp₀]
          exact List.Forall₂.cons hres (ih hrec)
      · simp only [Bool.not_eq_true] at hp
        simp only [hp, Bool.false_eq_true, if_false] at h
        exact absurd h (by simp)

theorem adoptAndResolve_flag_true {o : OwnerReference} {pOK : Nat → Bool}
    {rs : List Resource} {i : Nat} {scaler s : Autoscaler} {f : Bool}
    {p : List Resource}
    (h : adoptAndResolve o pOK rs i scaler true = .completed p s f) :
    s = scaler ∧ f = true := by
  induction rs generalizing i p s f with
  | nil =>
    simp [adoptAndResolve] at h
    exact ⟨h.2.1.symm, h.2.2⟩
  | cons res rest ih =>
    rw [adoptAndResolve] at h
    cases hres : adoptResource o res with
    | none => rw [hres] at h; exact absurd h (by simp)
    | some res' =>
      rw [hres] at h
      by_cases hp : pOK i = true
      · simp only [hp, if_true, Bool.not_true, Bool.false_and, Bool.false_eq_true,
          if_false, Bool.true_or] at h
        cases hrec : adoptAndResolve o pOK rest (i + 1) scaler true with
        | crash => rw [hrec] at h; exact absurd h (by simp)
        | aborted p₀ s₀ => rw [hrec] at h; exact absurd h (by simp)
        | completed p₀ s₀ f₀ =>
          rw [hrec] at h
          simp at h
          obtain ⟨hs₀, hf₀⟩ := ih hrec
          exact ⟨h.2.1 ▸ hs₀, h.2.2 ▸ hf₀⟩
      · simp only [Bool.not_eq_true] at hp
        simp only [hp, Bool.false_eq_true, if_false] at h
        exact absurd h (by simp)

theorem adoptAndResolve_target {o : OwnerReference} {pOK : Nat → Bool}
    {rs : List Resource} {i : Nat} {scaler s : Autoscaler} {f : Bool}
    {p : List Resource}
    (h : adoptAndResolve o pOK rs i scaler false = .completed p s f) :
    (∀ res, rs.find? (fun r => isScalableKind r.kind) = some res →
      s = { scaler with targetWorkload :=
        { apiVersion := res.apiVersion, kind := res.kind, name := res.name } } ∧
      f = true) ∧
    (rs.find? (fun r => isScalableKind r.kind) = none → s = scaler ∧ f = false) := by
  induction rs generalizing i p s f with
  | nil =>
    simp [adoptAndResolve] at h
    exact ⟨fun res hres => by simp at hres, fun _ => ⟨h.2.1.symm, h.2.2⟩⟩
  | cons res rest ih =>
    rw [adoptAndResolve] at h
    cases hres : adoptResource o res with
    | none => rw [hres] at h; exact absurd h (by simp)
    | some res' =>
      rw [hres] at h
      by_cases hp : pOK i = true
      · simp only [hp, if_true, Bool.not_false, Bool.true_and, Bool.false_or] at h
        by_cases hsc : isScalableKind res.kind = true
        · simp only [hsc, if_true] at h
          cases hrec : adoptAndResolve o pOK rest (i + 1)
              { scaler with targetWorkload :=
                  { apiVersion := res.apiVersion, kind := res.kind, name := res.name } }
              true with
          | crash => rw [hrec] at h; exact absurd h (by simp)
          | aborted p₀ s₀ => rw [hrec] at h; exact absurd h (by simp)
          | completed p₀ s₀ f₀ =>
            rw [hrec] at h
            simp at h
            obtain ⟨hs₀, hf₀⟩ := adoptAndResolve_flag_true hrec
            have hsc' : (fun r : Resource => isScalableKind r.kind) res = true := hsc
            constructor
            · intro res₀ hfind
              rw [List.find?_cons_of_pos rest hsc'] at hfind
              have : res₀ = res := by
                exact (Option.some_injective _ hfind.symm)
              subst this
              exact ⟨h.2.1 ▸ hs₀, h.2.2 ▸ hf₀⟩
            · intro hfind
              rw [List.find?_cons_of_pos rest hsc'] at hfind
              exact absurd hfind (by simp)
        · simp only [Bool.not_eq_true] at hsc
          simp only [hsc, Bool.false_eq_true, if_false, Bool.or_false] at h
          cases hrec : adoptAndResolve o pOK rest (i + 1) scaler false with
          | crash => rw [hrec] at h; exact absurd h (by simp)
          | aborted p₀ s₀ => rw [hrec] at h; exact absurd h (by simp)
          | completed p₀ s₀ f₀ =>
            rw [hrec] at h
            simp at h
            obtain ⟨ihsome, ihnone⟩ := ih hrec
            have hsc' : ¬ ((fun r : Resource => isScalableKind r.kind) res = true) := by
              simp [hsc]
            constructor
            · intro res₀ hfind
              rw [List.find?_cons_of_neg rest hsc'] at hfind
              obtain ⟨hs₀, hf₀⟩ := ihsome res₀ hfind
              exact ⟨h.2.1 ▸ hs₀, h.2.2 ▸ hf₀⟩
            · intro hfind
              rw [List.find?_cons_of_neg rest hsc'] at hfind
              obtain ⟨hs₀, hf₀⟩ := ihnone hfind
              exact ⟨h.2.1 ▸ hs₀, h.2.2 ▸ hf₀⟩
      · simp only [Bool.not_eq_true] at hp
        simp only [hp, Bool.false_eq_true, if_false] at h
        exact absurd h (by simp)

theorem adoptAndResolve_abort (o : OwnerReference) (pOK : Nat → Bool)
    (rs : List Resource) (i j : Nat) (scaler : Autoscaler) (flag : Bool)
    (hj : j < rs.length)
    (hok : ∀ k, k < j → pOK (i + k) = true)
    (hfail : pOK (i + j) = false)
    (hnc : ∀ res ∈ rs, ∀ r ∈ res.ownerReferences, r.controller ≠ none) :
    ∃ s, adoptAndResolve o pOK rs i scaler flag =
      .aborted (adoptedList o (rs.take j)) s := by
  induction rs generalizing i j scaler flag with
  | nil => exact absurd hj (by simp)
  | cons res rest ih =>
    obtain ⟨res', hres⟩ := adoptResource_isSome (o := o)
      (hnc res (List.mem_cons_self res rest))
    cases j with
    | zero =>
      refine ⟨scaler, ?_⟩
      rw [adoptAndResolve, hres]
      simp only [Nat.add_zero] at hfail
      simp only [hfail, Bool.false_eq_true, if_false]
      simp [adoptedList]
    | succ j' =>
      have h0 : pOK i = true := by
        have := hok 0 (Nat.succ_pos j')
        simpa using this
      obtain ⟨s, hrec⟩ := ih (i + 1) j'
        (if (!flag && isScalableKind res.kind) = true then
          { scaler with targetWorkload :=
              { apiVersion := res.apiVersion, kind := res.kind, name := res.name } }
        else scaler) (flag || isScalableKind res.kind)
        (by simpa using Nat.lt_of_succ_lt_succ hj)
        (fun k hk => by
          have := hok (k + 1) (Nat.succ_lt_succ hk)
          simpa [Nat.add_assoc, Nat.add_comm 1 k] using this)
        (by
          have : i + 1 + j' = i + (j' + 1) := by omega
          rw [this]
          exact hfail)
        (fun x hx => hnc x (List.mem_cons_of_mem res hx))
      refine ⟨s, ?_⟩
      rw [adoptAndResolve, hres]
      simp only [h0, if_true]
      rw [hrec]
      have : adoptedList o ((res :: rest).take (j' + 1)) =
          res' :: adoptedList o (rest.take j') := by
        simp [adoptedList, List.filterMap_cons, hres]
      rw [this]

theorem adoptAndResolve_ne_crash {o : OwnerReference} {pOK : Nat → Bool}
    {rs : List Resource} {i : Nat} {scaler : Autoscaler} {flag : Bool}
    (hnc : ∀ res ∈ rs, ∀ r ∈ res.ownerReferences, r.controller ≠ none) :
    adoptAndResolve o pOK rs i scaler flag ≠ .crash := by
  induction rs generalizing i scaler flag with
  | nil => simp [adoptAndResolve]
  | cons res rest ih =>
    obtain ⟨res', hres⟩ := adoptResource_isSome (o := o)
      (hnc res (List.mem_cons_self res rest))
    rw [adoptAndResolve, hres]
    by_cases hp : pOK i = true
    · simp only [hp, if_true]
      cases hrec : adoptAndResolve o pOK rest (i + 1)
          (if (!flag && isScalableKind res.kind) = true then
            { scaler with targetWorkload :=
                { apiVersion := res.apiVersion, kind := res.kind, name := res.name } }
          else scaler)
          (flag || isScalableKind res.kind) with
      | crash =>
        exact absurd hrec (ih (fun x hx => hnc x (List.mem_cons_of_mem res hx)))
      | aborted p₀ s₀ => simp
      | completed p₀ s₀ f₀ => simp
    · simp only [Bool.not_eq_true] at hp
      simp only [hp, Bool.false_eq_true, if_false]
      simp

theorem Reconcile_notFound {env : Env} (h : env.getTrait = .notFound) :
    Reconcile env = some
      { requeueAfterSeconds := ReconcileWaitResult, errNil := true,
        eventsEmitted := 0, writes := [], finalScaler := none } := by
  simp only [Reconcile, h]

theorem Reconcile_completed_eq {env : Env} {scaler : Autoscaler} {po : Option Unit}
    {workload : Resource} {children p : List Resource} {s : Autoscaler} {f : Bool}
    (hg : env.getTrait = .found scaler)
    (hl : env.locateParent = .ok po)
    (hw : env.fetchWorkload = .ok workload)
    (hc : env.fetchChildren = .ok children)
    (hloop : adoptAndResolve (traitOwnerReference scaler) env.patchOK
      (children ++ [workload]) 0 scaler false = .completed p s f) :
    Reconcile env =
      (if env.kedaOK = true then
        some { requeueAfterSeconds := 0, errNil := true, eventsEmitted := 0,
               writes := p.map StoreWrite.patchOwnerRefs,
               finalScaler := some
                 (if ((children ++ [workload]).length == 1 && !f) = true then
                   { s with targetWorkload :=
                       { apiVersion := workload.apiVersion, kind := workload.kind,
                         name := workload.name } }
                 else s) }
      else
        some { requeueAfterSeconds := ReconcileWaitResult, errNil := false,
               eventsEmitted := 0,
               writes := p.map StoreWrite.patchOwnerRefs ++
                 [.patchTraitStatusCondition],
               finalScaler := some
                 (if ((children ++ [workload]).length == 1 && !f) = true then
                   { s with targetWorkload :=
                       { apiVersion := workload.apiVersion, kind := workload.kind,
                         name := workload.name } }
                 else s) }) := by
  simp only [Reconcile, hg, hl, hw, hc, hloop]

theorem Reconcile_aborted_eq {env : Env} {scaler : Autoscaler} {po : Option Unit}
    {workload : Resource} {children p : List Resource} {s : Autoscaler}
    (hg : env.getTrait = .found scaler)
    (hl : env.locateParent = .ok po)
    (hw : env.fetchWorkload = .ok workload)
    (hc : env.fetchChildren = .ok children)
    (hloop : adoptAndResolve (traitOwnerReference scaler) env.patchOK
      (children ++ [workload]) 0 scaler false = .aborted p s) :
    Reconcile env = some
      { requeueAfterSeconds := utilReconcileWaitResult, errNil := true,
        eventsEmitted := 0,
        writes := p.map StoreWrite.patchOwnerRefs ++ [.patchTraitStatusCondition],
        finalScaler := some s } := by
  simp only [Reconcile, hg, hl, hw, hc, hloop]

theorem Reconcile_success_inv {env : Env} {out : ReconcileOutput} {scaler : Autoscaler}
    {workload : Resource} {children : List Resource}
    (hg : env.getTrait = .found scaler)
    (hw : env.fetchWorkload = .ok workload)
    (hc : env.fetchChildren = .ok children)
    (hrun : Reconcile env = some out)
    (hreq : out.requeueAfterSeconds = 0) :
    ∃ p s f, adoptAndResolve (traitOwnerReference scaler) env.patchOK
        (children ++ [workload]) 0 scaler false = .completed p s f ∧
      env.kedaOK = true ∧
      out = { requeueAfterSeconds := 0, errNil := true, eventsEmitted := 0,
              writes := p.map StoreWrite.patchOwnerRefs,
              finalScaler := some
                (if ((children ++ [workload]).length == 1 && !f) = true then
                  { s with targetWorkload :=
                      { apiVersion := workload.apiVersion, kind := workload.kind,
                        name := workload.name } }
                else s) } := by
  cases hl : env.locateParent with
  | error e =>
    simp only [Reconcile, hg, hl] at hrun
    simp at hrun
    rw [← hrun] at hreq
    simp [utilReconcileWaitResult] at hreq
  | ok po =>
    cases hloop : adoptAndResolve (traitOwnerReference scaler) env.patchOK
        (children ++ [workload]) 0 scaler false with
    | crash =>
      simp only [Reconcile, hg, hl, hw, hc, hloop] at hrun
      exact absurd hrun (by simp)
    | aborted p s =>
      rw [Reconcile_aborted_eq hg hl hw hc hloop] at hrun
      simp at hrun
      rw [← hrun] at hreq
      simp [utilReconcileWaitResult] at hreq
    | completed p s f =>
      rw [Reconcile_completed_eq hg hl hw hc hloop] at hrun
      by_cases hk : env.kedaOK = true
      · rw [if_pos hk, Option.some_inj] at hrun
        exact ⟨p, s, f, rfl, hk, hrun.symm⟩
      · rw [if_neg hk, Option.some_inj] at hrun
        rw [← hrun] at hreq
        simp [ReconcileWaitResult] at hreq

theorem filterMap_patchOwnerRefs (p : List Resource) :
    (p.map StoreWrite.patchOwnerRefs).filterMap ownerRefsWrite? = p := by
  induction p with
  | nil => rfl
  | cons x xs ih => simp [List.filterMap_cons, ownerRefsWrite?, ih]

theorem filter_isConditionWrite_map (p : List Resource) :
    (p.map StoreWrite.patchOwnerRefs).filter isConditionWrite = [] := by
  induction p with
  | nil => rfl
  | cons x xs ih => simp [List.filter_cons, isConditionWrite, ih]

theorem patchedResources_of_map {out : ReconcileOutput} {p : List Resource}
    (h : out.writes = p.map StoreWrite.patchOwnerRefs) :
    patchedResources out = p := by
  rw [patchedResources, h]
  exact filterMap_patchOwnerRefs p

theorem patchedResources_of_map_append {out : ReconcileOutput} {p : List Resource}
    (h : out.writes = p.map StoreWrite.patchOwnerRefs ++
      [StoreWrite.patchTraitStatusCondition]) :
    patchedResources out = p := by
  rw [patchedResources, h, List.filterMap_append]
  rw [filterMap_patchOwnerRefs p]
  simp [ownerRefsWrite?]

/-- C1: after a successful reconcile (trait found, workload fetched, children
discovered, requeue-free return), every patched resource — each discovered
child together with the workload — carries exactly one `controller=true`
owner reference, namely the trait's reference (trait apiVersion, kind, name,
UID, `blockOwnerDeletion=true`); every owner reference that previously
carried `controller=true` is still present demoted to `controller=false`,
and no owner reference is deleted (the list grows by exactly the appended
trait reference). -/
theorem C1_ownership_after_success
    (env : Env) (out : ReconcileOutput) (scaler : Autoscaler)
    (workload : Resource) (children : List Resource)
    (hg : env.getTrait = GetTraitResult.found scaler)
    (hw : env.fetchWorkload = Except.ok workload)
    (hc : env.fetchChildren = Except.ok children)
    (hrun : Reconcile env = some out)
    (hreq : out.requeueAfterSeconds = 0) :
    List.Forall₂ (ownershipAdopted scaler) (children ++ [workload])
      (patchedResources out) := by
  obtain ⟨p, s, f, hloop, hk, hout⟩ := Reconcile_success_inv hg hw hc hrun hreq
  have hforall := adoptAndResolve_completed_forall₂ hloop
  have hpat : patchedResources out = p :=
    patchedResources_of_map (by rw [hout])
  rw [hpat]
  exact hforall.imp (fun res res' h => adoptResource_ownership h)

/-- Witness for C1 at a concrete input: a deployment child that already
carries a controlling owner reference, plus the workload. -/
theorem C1_ownership_after_success_witness :
    List.Forall₂ (ownershipAdopted sampleScaler) ([sampleDeployment] ++ [sampleWorkload])
      (patchedResources okOut) :=
  C1_ownership_after_success okEnv okOut sampleScaler sampleWorkload [sampleDeployment]
    rfl rfl rfl rfl rfl

/-- C5: target resolution is deterministic first-match: on a successful
reconcile, when the discovered list (children in discovery order, workload
appended last) contains a resource of scalable kind, the trait's in-memory
`targetWorkload` is the (apiVersion, kind, name) of the FIRST such resource;
later scalable candidates never replace it, and multiple candidates are not
an error. -/
theorem C5_first_match_target
    (env : Env) (out : ReconcileOutput) (scaler : Autoscaler)
    (workload res : Resource) (children : List Resource)
    (hg : env.getTrait = GetTraitResult.found scaler)
    (hw : env.fetchWorkload = Except.ok workload)
    (hc : env.fetchChildren = Except.ok children)
    (hrun : Reconcile env = some out)
    (hreq : out.requeueAfterSeconds = 0)
    (hfind : (children ++ [workload]).find? (fun r => isScalableKind r.kind) = some res) :
    ∃ s, out.finalScaler = some s ∧
      s.targetWorkload =
        { apiVersion := res.apiVersion, kind := res.kind, name := res.name } := by
  obtain ⟨p, s, f, hloop, hk, hout⟩ := Reconcile_success_inv hg hw hc hrun hreq
  obtain ⟨hsome, _⟩ := adoptAndResolve_target hloop
  obtain ⟨hs, hf⟩ := hsome res hfind
  subst hf
  rw [hout]
  refine ⟨_, rfl, ?_⟩
  simp only [Bool.not_true, Bool.and_false, Bool.false_eq_true, if_false]
  rw [hs]

/-- Witness for C5 at a concrete input with two scalable candidates in the
discovery order: the first-discovered deployment wins. -/
theorem C5_first_match_target_witness :
    ∃ s, twoScalableOut.finalScaler = some s ∧
      s.targetWorkload =
        { apiVersion := sampleDeployment.apiVersion, kind := sampleDeployment.kind,
          name := sampleDeployment.name } :=
  C5_first_match_target twoScalableEnv twoScalableOut sampleScaler sampleWorkload
    sampleDeployment [sampleDeployment, sampleStatefulSet] rfl rfl rfl rfl rfl (by decide)

/-- C6 counterexample: a successful reconcile whose discovered set has one
non-scalable child (a service) and a non-scalable workload.  No resource of
scalable kind exists, yet the workload is NOT selected: the trait's
`targetWorkload` keeps its zero value, because the fallback of line 174 fires
only when `len(resources) == 1`. -/
theorem C6_counterexample :
    Reconcile serviceChildEnv = some serviceChildOut ∧
    serviceChildOut.requeueAfterSeconds = 0 ∧
    ([sampleService] ++ [sampleWorkload]).find? (fun r => isScalableKind r.kind) = none ∧
    serviceChildOut.finalScaler = some sampleScaler ∧
    sampleScaler.targetWorkload = TargetWorkload.zero ∧
    TargetWorkload.zero ≠
      { apiVersion := sampleWorkload.apiVersion, kind := sampleWorkload.kind,
        name := sampleWorkload.name } := by
  refine ⟨rfl, rfl, by decide, rfl, rfl, by decide⟩

/-- C6 as amended: on a successful reconcile with no scalable resource in
the discovered set, the workload becomes the target only when the set
contains nothing besides the workload itself (no children, §4.4's wording);
when non-scalable children are present, the trait's `targetWorkload` is left
unchanged. -/
theorem C6_amended_fallback
    (env : Env) (out : ReconcileOutput) (scaler : Autoscaler)
    (workload : Resource) (children : List Resource)
    (hg : env.getTrait = GetTraitResult.found scaler)
    (hw : env.fetchWorkload = Except.ok workload)
    (hc : env.fetchChildren = Except.ok children)
    (hrun : Reconcile env = some out)
    (hreq : out.requeueAfterSeconds = 0)
    (hnone : (children ++ [workload]).find? (fun r => isScalableKind r.kind) = none) :
    (children = [] →
      ∃ s, out.finalScaler = some s ∧
        s.targetWorkload =
          { apiVersion := workload.apiVersion, kind := workload.kind,
            name := workload.name }) ∧
    (children ≠ [] → out.finalScaler = some scaler) := by
  obtain ⟨p, s, f, hloop, hk, hout⟩ := Reconcile_success_inv hg hw hc hrun hreq
  obtain ⟨_, hnonecase⟩ := adoptAndResolve_target hloop
  obtain ⟨hs, hf⟩ := hnonecase hnone
  subst hf
  subst hs
  rw [hout]
  constructor
  · intro hch
    subst hch
    refine ⟨_, rfl, ?_⟩
    simp
  · intro hch
    simp only [Option.some.injEq]
    have hlen : ((children ++ [workload]).length == 1) = false := by
      have h0 : children.length ≠ 0 := fun h => hch (List.length_eq_zero.mp h)
      have hl : (children ++ [workload]).length = children.length + 1 := by simp
      rw [hl, beq_eq_false_iff_ne]
      omega
    rw [hlen]
    simp

/-- Witness for the amended C6 at a concrete input with no children: the
fallback selects the workload. -/
theorem C6_amended_fallback_witness :
    ∃ s, emptyChildrenOut.finalScaler = some s ∧
      s.targetWorkload =
        { apiVersion := sampleWorkload.apiVersion, kind := sampleWorkload.kind,
          name := sampleWorkload.name } :=
  (C6_amended_fallback emptyChildrenEnv emptyChildrenOut sampleScaler sampleWorkload []
    rfl rfl rfl rfl rfl (by decide)).1 rfl

/-- C9: when the trait fetch reports not-found, Reconcile exits cleanly:
nil error, no condition recorded, no event emitted, no store write at all. -/
theorem C9_notFound_clean (env : Env)
    (h : env.getTrait = GetTraitResult.notFound) :
    ∃ out, Reconcile env = some out ∧ out.errNil = true ∧
      conditionsRecorded out = 0 ∧ out.eventsEmitted = 0 ∧
      out.writes = [] ∧ out.finalScaler = none :=
  ⟨_, Reconcile_notFound h, rfl, rfl, rfl, rfl, rfl⟩

/-- Witness for C9 at a concrete not-found environment. -/
theorem C9_notFound_clean_witness :
    ∃ out, Reconcile notFoundEnv = some out ∧ out.errNil = true ∧
      conditionsRecorded out = 0 ∧ out.eventsEmitted = 0 ∧
      out.writes = [] ∧ out.finalScaler = none :=
  C9_notFound_clean notFoundEnv rfl

/-- C2 fails on the code: reconciling a second time with unchanged inputs
(the cluster state is exactly what the first successful run wrote, the
stored trait unchanged) is NOT a no-diff.  The loop of lines 147-156
unconditionally appends the trait's owner reference again after demoting
the one it appended last time, so every computed owner-reference list
differs from the existing one and grows by one entry per run. -/
theorem C2_second_run_not_idempotent :
    Reconcile okEnv = some okOut ∧
    patchedResources okOut = [firstRunDeployment, firstRunWorkload] ∧
    Reconcile secondRunEnv = some secondRunOut ∧
    patchedResources secondRunOut ≠ [firstRunDeployment, firstRunWorkload] ∧
    (patchedResources secondRunOut).map (fun r => r.ownerReferences.length) = [3, 2] ∧
    (patchedResources okOut).map (fun r => r.ownerReferences.length) = [2, 1] := by
  refine ⟨rfl, by decide, rfl, by decide, by decide, by decide⟩

/-- C3 counterexample: on a successful reconcile that selects a target
(the deployment child), the trait's `targetWorkload` is set only on the
in-memory object; no store write of the run persists any trait spec field,
so a later reconcile re-fetches the trait with its `targetWorkload` still
zero — the binding is not durably written. -/
theorem C3_counterexample :
    Reconcile okEnv = some okOut ∧
    okOut.finalScaler = some { sampleScaler with targetWorkload :=
      { apiVersion := "apps/v1", kind := "Deployment", name := "deploy-sample" } } ∧
    okOut.writes.all (fun w => !writesTraitSpec w) = true ∧
    sampleScaler.targetWorkload = TargetWorkload.zero := by
  refine ⟨rfl, rfl, by decide, rfl⟩

/-- C3 as amended: on a successful reconcile whose discovered list contains
a scalable resource, the winning (apiVersion, kind, name) triple is written
to the trait's IN-MEMORY `targetWorkload` field (passed on to the
synchronizer within the same invocation), but `Reconcile` issues no store
write of the trait's spec, so the binding is never persisted to the stored
trait object and later reconciles recompute it. -/
theorem C3_amended_target_in_memory_only
    (env : Env) (out : ReconcileOutput) (scaler : Autoscaler)
    (workload res : Resource) (children : List Resource)
    (hg : env.getTrait = GetTraitResult.found scaler)
    (hw : env.fetchWorkload = Except.ok workload)
    (hc : env.fetchChildren = Except.ok children)
    (hrun : Reconcile env = some out)
    (hreq : out.requeueAfterSeconds = 0)
    (hfind : (children ++ [workload]).find? (fun r => isScalableKind r.kind) = some res) :
    (∃ s, out.finalScaler = some s ∧
      s.targetWorkload =
        { apiVersion := res.apiVersion, kind := res.kind, name := res.name }) ∧
    (∀ w ∈ out.writes, writesTraitSpec w = false) := by
  obtain ⟨p, s, f, hloop, hk, hout⟩ := Reconcile_success_inv hg hw hc hrun hreq
  constructor
  · obtain ⟨hsome, _⟩ := adoptAndResolve_target hloop
    obtain ⟨hs, hf⟩ := hsome res hfind
    subst hf
    rw [hout]
    refine ⟨_, rfl, ?_⟩
    simp only [Bool.not_true, Bool.and_false, Bool.false_eq_true, if_false]
    rw [hs]
  · intro w _
    cases w with
    | patchOwnerRefs res₀ => rfl
    | patchTraitStatusCondition => rfl

/-- Witness for the amended C3 at the concrete all-success environment. -/
theorem C3_amended_target_in_memory_only_witness :
    (∃ s, okOut.finalScaler = some s ∧
      s.targetWorkload =
        { apiVersion := sampleDeployment.apiVersion, kind := sampleDeployment.kind,
          name := sampleDeployment.name }) ∧
    (∀ w ∈ okOut.writes, writesTraitSpec w = false) :=
  C3_amended_target_in_memory_only okEnv okOut sampleScaler sampleWorkload
    sampleDeployment [sampleDeployment] rfl rfl rfl rfl rfl (by decide)

/-- C4 counterexample: the trait-fetch failure path skips the
Condition/Event Reporter entirely.  A trait fetch failing with an error
other than not-found (line 99 returns `client.IgnoreNotFound(err)`
directly) produces a non-nil error return with no condition recorded and
no event emitted. -/
theorem C4_counterexample :
    Reconcile getErrEnv = some getErrOut ∧
    getErrOut.errNil = false ∧ reporterInvoked getErrOut = false := by
  refine ⟨rfl, rfl, by decide⟩

/-- C4 as amended: every requeueing return of `Reconcile` either reached
the Condition/Event Reporter — parent-location, workload-fetch,
child-discovery and ownership-patch failures all do (from src), and the
delegated-scale-synchronization failure does too (modelled from the spec:
section 7 records a condition on a delegation failure) — or is the
trait-fetch path (line 99 returns `client.IgnoreNotFound(err)` directly,
whether not-found or another error), which skips the Reporter. -/
theorem C4_amended_reporter
    (env : Env) (out : ReconcileOutput)
    (hrun : Reconcile env = some out)
    (hfail : out.requeueAfterSeconds ≠ 0) :
    reporterInvoked out = true ∨
    env.getTrait = GetTraitResult.notFound ∨
    env.getTrait = GetTraitResult.errorOther := by
  cases hg : env.getTrait with
  | notFound => exact Or.inr (Or.inl rfl)
  | errorOther => exact Or.inr (Or.inr rfl)
  | found scaler =>
    cases hl : env.locateParent with
    | error e =>
      simp only [Reconcile, hg, hl, Option.some_inj] at hrun
      left
      rw [← hrun]
      rfl
    | ok po =>
      cases hw : env.fetchWorkload with
      | error e =>
        simp only [Reconcile, hg, hl, hw, Option.some_inj] at hrun
        left
        rw [← hrun]
        rfl
      | ok workload =>
        cases hc : env.fetchChildren with
        | error e =>
          simp only [Reconcile, hg, hl, hw, hc, Option.some_inj] at hrun
          left
          rw [← hrun]
          rfl
        | ok children =>
          cases hloop : adoptAndResolve (traitOwnerReference scaler) env.patchOK
              (children ++ [workload]) 0 scaler false with
          | crash =>
            simp only [Reconcile, hg, hl, hw, hc, hloop] at hrun
            exact absurd hrun (by simp)
          | aborted p s =>
            rw [Reconcile_aborted_eq hg hl hw hc hloop, Option.some_inj] at hrun
            left
            rw [← hrun]
            simp [reporterInvoked, conditionsRecorded, List.filter_append,
              filter_isConditionWrite_map, isConditionWrite]
          | completed p s f =>
            rw [Reconcile_completed_eq hg hl hw hc hloop] at hrun
            by_cases hk : env.kedaOK = true
            · rw [if_pos hk, Option.some_inj] at hrun
              rw [← hrun] at hfail
              simp at hfail
            · rw [if_neg hk, Option.some_inj] at hrun
              left
              rw [← hrun]
              simp [reporterInvoked, conditionsRecorded, List.filter_append,
                filter_isConditionWrite_map, isConditionWrite]

/-- Witness for the amended C4 at a concrete delegation failure: the
(spec-modelled) `scaleByKEDA` error path reaches the Reporter. -/
theorem C4_amended_reporter_witness :
    reporterInvoked kedaFailOut = true ∨
    kedaFailEnv.getTrait = GetTraitResult.notFound ∨
    kedaFailEnv.getTrait = GetTraitResult.errorOther :=
  C4_amended_reporter kedaFailEnv kedaFailOut rfl (by decide)

/-- C8: if the j-th ownership patch fails (all earlier ones succeeded),
`Reconcile` aborts the remaining adoption loop — exactly the resources
before index j are patched, none after — records one condition on the
trait, returns the fixed 30-second requeue result, and performs no
rollback: the patches already applied stay in the write list. -/
theorem C8_patch_failure_aborts
    (env : Env) (scaler : Autoscaler) (po : Option Unit)
    (workload : Resource) (children : List Resource) (j : Nat)
    (hg : env.getTrait = GetTraitResult.found scaler)
    (hl : env.locateParent = Except.ok po)
    (hw : env.fetchWorkload = Except.ok workload)
    (hc : env.fetchChildren = Except.ok children)
    (hj : j < (children ++ [workload]).length)
    (hok : ∀ k, k < j → env.patchOK k = true)
    (hfail : env.patchOK j = false)
    (hnc : ∀ res ∈ children ++ [workload], ∀ r ∈ res.ownerReferences,
      r.controller ≠ none) :
    ∃ out, Reconcile env = some out ∧
      out.requeueAfterSeconds = utilReconcileWaitResult ∧
      conditionsRecorded out = 1 ∧
      patchedResources out =
        adoptedList (traitOwnerReference scaler) ((children ++ [workload]).take j) := by
  obtain ⟨s, hloop⟩ := adoptAndResolve_abort (traitOwnerReference scaler)
    env.patchOK (children ++ [workload]) 0 j scaler false hj
    (fun k hk => by simpa using hok k hk) (by simpa using hfail) hnc
  refine ⟨_, Reconcile_aborted_eq hg hl hw hc hloop, rfl, ?_, ?_⟩
  · simp [conditionsRecorded, List.filter_append, filter_isConditionWrite_map,
      isConditionWrite]
  · exact patchedResources_of_map_append rfl

/-- Witness for C8: the second of three patches fails; only the first
resource is patched, one condition is recorded, the 30-second requeue is
returned. -/
theorem C8_patch_failure_aborts_witness :
    ∃ out, Reconcile patchFailEnv = some out ∧
      out.requeueAfterSeconds = utilReconcileWaitResult ∧
      conditionsRecorded out = 1 ∧
      patchedResources out =
        adoptedList (traitOwnerReference sampleScaler)
          (([sampleDeployment, sampleStatefulSet] ++ [sampleWorkload]).take 1) :=
  C8_patch_failure_aborts patchFailEnv sampleScaler (some ()) sampleWorkload
    [sampleDeployment, sampleStatefulSet] 1 rfl rfl rfl rfl (by decide)
    (fun k hk => by
      have hk0 : k = 0 := by omega
      subst hk0
      rfl)
    rfl (by decide)

/-- C10 counterexample: the demotion loop dereferences each owner
reference's controller pointer without a nil check (line 151), so a
discovered resource carrying an owner reference with an absent controller
flag crashes the reconcile (modelled as `none`). -/
theorem C10_counterexample :
    Reconcile nilControllerEnv = none ∧
    nilControllerRef.controller = none ∧
    nilControllerRef ∈ nilControllerChild.ownerReferences := by
  refine ⟨rfl, rfl, by decide⟩

/-- C10 as amended: `Reconcile` does not crash provided every owner
reference on every discovered resource (children and workload) has its
controller flag present; an absent (nil) flag is dereferenced by the
demotion loop and panics. -/
theorem C10_amended_no_crash
    (env : Env)
    (hnc : ∀ workload children, env.fetchWorkload = Except.ok workload →
      env.fetchChildren = Except.ok children →
      ∀ res ∈ children ++ [workload], ∀ r ∈ res.ownerReferences,
        r.controller ≠ none) :
    Reconcile env ≠ none := by
  cases hg : env.getTrait with
  | notFound => simp [Reconcile, hg]
  | errorOther => simp [Reconcile, hg]
  | found scaler =>
    cases hl : env.locateParent with
    | error e => simp [Reconcile, hg, hl]
    | ok po =>
      cases hw : env.fetchWorkload with
      | error e => simp [Reconcile, hg, hl, hw]
      | ok workload =>
        cases hc : env.fetchChildren with
        | error e => simp [Reconcile, hg, hl, hw, hc]
        | ok children =>
          cases hloop : adoptAndResolve (traitOwnerReference scaler) env.patchOK
              (children ++ [workload]) 0 scaler false with
          | crash =>
            exact absurd hloop (adoptAndResolve_ne_crash (hnc workload children hw hc))
          | aborted p s =>
            rw [Reconcile_aborted_eq hg hl hw hc hloop]
            simp
          | completed p s f =>
            rw [Reconcile_completed_eq hg hl hw hc hloop]
            by_cases hk : env.kedaOK = true <;> simp [hk]

/-- Witness for the amended C10 at the concrete all-success environment
whose owner references all carry a controller flag. -/
theorem C10_amended_no_crash_witness : Reconcile okEnv ≠ none :=
  C10_amended_no_crash okEnv (fun workload children hw hc => by
    injection hw with h₁
    injection hc with h₂
    subst h₁
    subst h₂
    decide)

/-- C7: a cron trigger is valid (produces no warning, hence enters
delegation) iff `startAt`, `duration` and `replicas` are all present,
`startAt` parses as HH:MM, `duration` parses as an hour count, and
startHour + durationHour < 24.  The concrete violated case
startAt="12:01", duration="13" (replicas present) yields exactly the
sum-exceeds-24-hours warning, whose recorded text is the constant message
of `types.go` line 70. -/
theorem C7_cron_validation :
    (∀ t : CronTrigger, cronValid t = true ↔
      ∃ s h d dh n, t.startAt = some s ∧ parseStartAtHour s = some h ∧
        t.duration = some d ∧ parseDurationHour d = some dh ∧
        t.replicas = some n ∧ h + dh < 24) ∧
    validateCron { startAt := some "12:01", duration := some "13", replicas := some 2 } =
      [SpecWarningSumOfStartAndDurationMoreThan24Hour] ∧
    SpecWarningSumOfStartAndDurationMoreThan24Hour =
      "the sum of the start hour and the duration hour has to be less than 24 hours." := by
  refine ⟨?_, by decide, rfl⟩
  intro t
  constructor
  · intro hv
    rw [cronValid, List.isEmpty_iff] at hv
    unfold validateCron at hv
    rcases hsa : t.startAt with _ | s <;> rw [hsa] at hv
    · simp at hv
    rcases hd : t.duration with _ | d <;> rw [hd] at hv
    · simp at hv
    rcases hr : t.replicas with _ | n <;> rw [hr] at hv
    · simp at hv
    simp at hv
    rcases hph : parseStartAtHour s with _ | h <;> rw [hph] at hv <;> simp at hv
    rcases hpd : parseDurationHour d with _ | dh <;> rw [hpd] at hv <;> simp at hv
    exact ⟨s, h, d, dh, n, rfl, hph, rfl, hpd, rfl, hv⟩
  · rintro ⟨s, h, d, dh, n, hsa, hph, hd, hpd, hr, hsum⟩
    rw [cronValid, List.isEmpty_iff]
    unfold validateCron
    rw [hsa, hd, hr]
    simp [hph, hpd, hsum]

/-- Witness for C7: the spec's valid end-to-end cron trigger
(`09:00`, `2`, `5`) validates cleanly. -/
theorem C7_cron_validation_witness :
    cronValid { startAt := some "09:00", duration := some "2", replicas := some 5 } = true :=
  (C7_cron_validation.1 ⟨some "09:00", some "2", some 5⟩).mpr
    ⟨"09:00", 9, "2", 2, 5, rfl, by decide, rfl, by decide, rfl, by decide⟩

end Autoscalers
